import Mathlib

/-!
Shallow embedding of the audio playback and caching pipeline of the
pilgrimage web application: the base64 codec and PCM decoder, the
IndexedDB-backed persistent store, the global playback engine and native
speech fallback from src/utils/audio.ts, and the synthesis orchestrator
(handleToggleAudio in src/components/PlacesSection.tsx, fetchAndPlayAudio
in src/components/VirtualGuide.tsx).

JavaScript strings are modelled as lists of characters, byte arrays as
lists of naturals below 256, and fallible operations as Except values.
-/

namespace AudioPipeline

/-- JS strings are modelled as lists of characters. -/
abbrev Str := List Char

/-! ### Codec: base64 (encode / decode in audio.ts) -/

/-- The base64 alphabet used by btoa / atob. -/
def b64Alphabet : Str :=
  ("ABCDEFGHIJKLMNOPQRSTUVWXYZabcdefghijklmnopqrstuvwxyz0123456789+/").data

/-- Character of a sextet value (total; values ≥ 64 never arise). -/
def sextetToChar (n : Nat) : Char := b64Alphabet.getD n 'A'

def charToSextetAux : Str → Nat → Char → Option Nat
  | [], _, _ => none
  | a :: rest, i, c => if c = a then some i else charToSextetAux rest (i + 1) c

/-- Sextet value of a base64 alphabet character, none for anything else. -/
def charToSextet (c : Char) : Option Nat := charToSextetAux b64Alphabet 0 c

/-- btoa on a byte sequence: each 3-byte group becomes 4 base64
characters; a final 1- or 2-byte group is padded with `=`.  `encode` in
audio.ts builds a binary string from the Uint8Array with
String.fromCharCode and calls btoa, so its overall effect on the byte
sequence is exactly this function. -/
def btoaModel : List Nat → Str
  | [] => []
  | [b0] => [sextetToChar (b0 / 4), sextetToChar (b0 % 4 * 16), '=', '=']
  | [b0, b1] => [sextetToChar (b0 / 4), sextetToChar (b0 % 4 * 16 + b1 / 16),
                 sextetToChar (b1 % 16 * 4), '=']
  | b0 :: b1 :: b2 :: rest =>
      sextetToChar (b0 / 4) :: sextetToChar (b0 % 4 * 16 + b1 / 16) ::
      sextetToChar (b1 % 16 * 4 + b2 / 64) :: sextetToChar (b2 % 64) ::
      btoaModel rest

/-- `encode` from audio.ts. -/
def encode (bytes : List Nat) : Str := btoaModel bytes

/-- ASCII whitespace stripped by the forgiving-base64 (atob) algorithm. -/
def asciiWhitespace : Str := ['\t', '\n', '\x0c', '\r', ' ']

/-- The character class of the JS regex `[\s\n\r]` used by `decode`. -/
def jsWhitespace : Str :=
  [' ', '\t', '\n', '\x0b', '\x0c', '\r',
   '\u00A0', '\u1680', '\u2000', '\u2001', '\u2002', '\u2003', '\u2004',
   '\u2005', '\u2006', '\u2007', '\u2008', '\u2009', '\u200A', '\u2028',
   '\u2029', '\u202F', '\u205F', '\u3000', '\uFEFF']

def dropOnePad (cs : Str) : Str :=
  if cs.getLast? = some '=' then cs.dropLast else cs

/-- Remove up to two trailing `=` characters. -/
def dropPads (cs : Str) : Str := dropOnePad (dropOnePad cs)

/-- Reassemble sextets into bytes, four at a time; a trailing group of
two or three sextets yields one or two bytes, leftover bits discarded
(forgiving-base64).  A trailing single sextet is rejected before this
function is reached. -/
def sextetsToBytes : List Nat → List Nat
  | s0 :: s1 :: s2 :: s3 :: rest =>
      (s0 * 4 + s1 / 16) :: (s1 % 16 * 16 + s2 / 4) :: (s2 % 4 * 64 + s3) ::
      sextetsToBytes rest
  | [s0, s1] => [s0 * 4 + s1 / 16]
  | [s0, s1, s2] => [s0 * 4 + s1 / 16, s1 % 16 * 16 + s2 / 4]
  | _ => []

def invalidCharMsg : Str := ("InvalidCharacterError").data

def charsToSextets : Str → Except Str (List Nat)
  | [] => .ok []
  | c :: rest =>
      match charToSextet c with
      | none => .error invalidCharMsg
      | some s => (charsToSextets rest).map (fun t => s :: t)

/-- Browser `atob` (WHATWG forgiving-base64 decode): strip ASCII
whitespace, strip up to two trailing pads when the length is a multiple
of four, reject length ≡ 1 (mod 4) and any character outside the
alphabet, then reassemble the sextets into bytes. -/
def atobModel (s : Str) : Except Str (List Nat) :=
  let t := s.filter (fun c => !asciiWhitespace.contains c)
  let t2 := if t.length % 4 = 0 then dropPads t else t
  if t2.length % 4 = 1 then .error invalidCharMsg
  else (charsToSextets t2).map sextetsToBytes

/-- `decode` from audio.ts: strip whitespace with replace(/[\s\n\r]/g, "")
and feed the cleaned string to atob, building the byte array from the
binary string; a decoding failure is logged and rethrown. -/
def decode (s : Str) : Except Str (List Nat) :=
  atobModel (s.filter (fun c => !jsWhitespace.contains c))

/-! ### Codec: PCM 16-bit → float buffer (decodeAudioData in audio.ts) -/

/-- Little-endian signed 16-bit value of a byte pair (one Int16Array
element). -/
def int16OfBytes (b0 b1 : Nat) : Int :=
  if b0 + 256 * b1 < 32768 then (b0 : Int) + 256 * b1
  else (b0 : Int) + 256 * b1 - 65536

/-- The Int16Array view `new Int16Array(data.buffer, data.byteOffset,
floor(byteLength / 2))`: consecutive little-endian byte pairs, any
trailing odd byte excluded. -/
def toInt16List : List Nat → List Int
  | b0 :: b1 :: rest => int16OfBytes b0 b1 :: toInt16List rest
  | _ => []

/-- A decoded Web Audio buffer: per-channel lists of float samples. -/
structure AudioBuf where
  sampleRate : Nat
  numChannels : Nat
  frameCount : Nat
  channelData : List (List ℚ)
  deriving DecidableEq

def invalidAudioMsg : Str := ("Invalid audio data").data

def invalidFrameMsg : Str := ("Invalid frame count derived from audio data").data

/-- `decodeAudioData` from audio.ts: guard byte length ≥ 2, view the
bytes as Int16Array of length floor(byteLength / 2), derive
frameCount = floor(length / numChannels) and reject a non-positive
frame count, then fill each channel with
`(dataInt16[i * numChannels + channel] || 0) / 32768.0`
(a missing index contributing silence). -/
def decodeAudioData (data : List Nat) (sampleRate numChannels : Nat) :
    Except Str AudioBuf :=
  if data.length < 2 then .error invalidAudioMsg
  else
    let dataInt16 := toInt16List data
    let frameCount := dataInt16.length / numChannels
    if frameCount = 0 then .error invalidFrameMsg
    else .ok {
      sampleRate := sampleRate
      numChannels := numChannels
      frameCount := frameCount
      channelData := (List.range numChannels).map (fun ch =>
        (List.range frameCount).map (fun i =>
          (dataInt16.getD (i * numChannels + ch) 0 : ℚ) / 32768)) }

/-! ### Codec lemmas -/

/-- The unpadded sextet stream btoa produces for a byte sequence. -/
def bytesToSextets : List Nat → List Nat
  | [] => []
  | [b0] => [b0 / 4, b0 % 4 * 16]
  | [b0, b1] => [b0 / 4, b0 % 4 * 16 + b1 / 16, b1 % 16 * 4]
  | b0 :: b1 :: b2 :: rest =>
      b0 / 4 :: (b0 % 4 * 16 + b1 / 16) :: (b1 % 16 * 4 + b2 / 64) :: b2 % 64 ::
      bytesToSextets rest

/-- Padding btoa appends after the sextet characters. -/
def padChars (bs : List Nat) : Str :=
  if bs.length % 3 = 1 then ['=', '='] else if bs.length % 3 = 2 then ['='] else []

theorem btoaModel_eq : ∀ bs : List Nat,
    btoaModel bs = (bytesToSextets bs).map sextetToChar ++ padChars bs
  | [] => by simp [btoaModel, bytesToSextets, padChars]
  | [b0] => by simp [btoaModel, bytesToSextets, padChars]
  | [b0, b1] => by simp [btoaModel, bytesToSextets, padChars]
  | b0 :: b1 :: b2 :: rest => by
      have ih := btoaModel_eq rest
      have h3 : (rest.length + 1 + 1 + 1) % 3 = rest.length % 3 := by omega
      simp only [btoaModel, bytesToSextets, List.map_cons, List.cons_append, ih,
        padChars, List.length_cons, h3]

theorem sextetToChar_mem (n : Nat) : sextetToChar n ∈ b64Alphabet := by
  unfold sextetToChar
  by_cases h : n < b64Alphabet.length
  · rw [List.getD_eq_getElem _ _ h]
    exact List.getElem_mem h
  · rw [List.getD_eq_default _ _ (by omega)]
    decide

theorem b64_no_ascii_ws : ∀ c ∈ b64Alphabet, asciiWhitespace.contains c = false := by
  decide

theorem b64_no_js_ws : ∀ c ∈ b64Alphabet, jsWhitespace.contains c = false := by
  decide

theorem b64_no_pad : ∀ c ∈ b64Alphabet, c ≠ '=' := by decide

theorem padChars_cases (bs : List Nat) :
    padChars bs = [] ∨ padChars bs = ['='] ∨ padChars bs = ['=', '='] := by
  unfold padChars
  split
  · simp
  · split <;> simp

theorem mem_btoaModel {c : Char} {bs : List Nat} (h : c ∈ btoaModel bs) :
    c ∈ b64Alphabet ∨ c = '=' := by
  rw [btoaModel_eq] at h
  rcases List.mem_append.mp h with h1 | h2
  · obtain ⟨n, _, rfl⟩ := List.mem_map.mp h1
    exact .inl (sextetToChar_mem n)
  · right
    rcases padChars_cases bs with hp | hp | hp <;> rw [hp] at h2 <;> simp_all

theorem filter_ascii_btoa (bs : List Nat) :
    (btoaModel bs).filter (fun c => !asciiWhitespace.contains c) = btoaModel bs := by
  apply List.filter_eq_self.mpr
  intro c hc
  rcases mem_btoaModel hc with h | rfl
  · simpa using b64_no_ascii_ws c h
  · decide

theorem filter_js_btoa (bs : List Nat) :
    (btoaModel bs).filter (fun c => !jsWhitespace.contains c) = btoaModel bs := by
  apply List.filter_eq_self.mpr
  intro c hc
  rcases mem_btoaModel hc with h | rfl
  · simpa using b64_no_js_ws c h
  · decide

theorem btoaModel_length_mod : ∀ bs : List Nat, (btoaModel bs).length % 4 = 0
  | [] => by simp [btoaModel]
  | [_] => by simp [btoaModel]
  | [_, _] => by simp [btoaModel]
  | _ :: _ :: _ :: rest => by
      have ih := btoaModel_length_mod rest
      simp only [btoaModel, List.length_cons]
      omega

theorem bytesToSextets_length_mod : ∀ bs : List Nat,
    (bytesToSextets bs).length % 4 ≠ 1
  | [] => by simp [bytesToSextets]
  | [_] => by simp [bytesToSextets]
  | [_, _] => by simp [bytesToSextets]
  | _ :: _ :: _ :: rest => by
      have ih := bytesToSextets_length_mod rest
      simp only [bytesToSextets, List.length_cons]
      omega

theorem bytesToSextets_lt : ∀ bs : List Nat, (∀ b ∈ bs, b < 256) →
    ∀ s ∈ bytesToSextets bs, s < 64
  | [], _ => by simp [bytesToSextets]
  | [b0], h => by
      have hb0 : b0 < 256 := h b0 (by simp)
      simp only [bytesToSextets, List.mem_cons, List.mem_singleton]
      rintro s (rfl | rfl | h) <;> first | omega | simp_all
  | [b0, b1], h => by
      have hb0 : b0 < 256 := h b0 (by simp)
      have hb1 : b1 < 256 := h b1 (by simp)
      simp only [bytesToSextets, List.mem_cons, List.mem_singleton]
      rintro s (rfl | rfl | rfl | h) <;> first | omega | simp_all
  | b0 :: b1 :: b2 :: rest, h => by
      have hb0 : b0 < 256 := h b0 (by simp)
      have hb1 : b1 < 256 := h b1 (by simp)
      have hb2 : b2 < 256 := h b2 (by simp)
      have ih := bytesToSextets_lt rest (fun b hb => h b (by simp [hb]))
      simp only [bytesToSextets, List.mem_cons]
      rintro s (rfl | rfl | rfl | rfl | hmem)
      · omega
      · omega
      · omega
      · omega
      · exact ih s hmem

theorem charToSextet_sextetToChar : ∀ n : Nat, n < 64 →
    charToSextet (sextetToChar n) = some n := by decide

theorem charsToSextets_map : ∀ sx : List Nat, (∀ s ∈ sx, s < 64) →
    charsToSextets (sx.map sextetToChar) = .ok sx
  | [], _ => rfl
  | s :: rest, h => by
      have hs : s < 64 := h s (by simp)
      have ih := charsToSextets_map rest (fun t ht => h t (by simp [ht]))
      simp only [List.map_cons, charsToSextets, charToSextet_sextetToChar s hs, ih,
        Except.map]

theorem sextetsToBytes_bytesToSextets : ∀ bs : List Nat, (∀ b ∈ bs, b < 256) →
    sextetsToBytes (bytesToSextets bs) = bs
  | [], _ => rfl
  | [b0], h => by
      have hb0 : b0 < 256 := h b0 (by simp)
      simp only [bytesToSextets, sextetsToBytes, List.cons.injEq, and_true]
      omega
  | [b0, b1], h => by
      have hb0 : b0 < 256 := h b0 (by simp)
      have hb1 : b1 < 256 := h b1 (by simp)
      simp only [bytesToSextets, sextetsToBytes, List.cons.injEq, and_true]
      omega
  | b0 :: b1 :: b2 :: rest, h => by
      have hb0 : b0 < 256 := h b0 (by simp)
      have hb1 : b1 < 256 := h b1 (by simp)
      have hb2 : b2 < 256 := h b2 (by simp)
      have ih := sextetsToBytes_bytesToSextets rest (fun b hb => h b (by simp [hb]))
      simp only [bytesToSextets, sextetsToBytes, List.cons.injEq, ih, and_true]
      omega

theorem dropOnePad_concat (xs : Str) : dropOnePad (xs ++ ['=']) = xs := by
  simp [dropOnePad, List.getLast?_concat, List.dropLast_concat]

theorem dropOnePad_no_pad (xs : Str) (h : ∀ c ∈ xs, c ≠ '=') :
    dropOnePad xs = xs := by
  unfold dropOnePad
  cases hx : xs.getLast? with
  | none => simp
  | some c =>
      have hc : c ∈ xs := List.mem_of_mem_getLast? (Option.mem_def.mpr hx)
      have : c ≠ '=' := h c hc
      simp [this]

theorem dropPads_append (xs : Str) (h : ∀ c ∈ xs, c ≠ '=') :
    ∀ p : Str, p = [] ∨ p = ['='] ∨ p = ['=', '='] →
      dropPads (xs ++ p) = xs := by
  rintro p (rfl | rfl | rfl)
  · unfold dropPads
    rw [List.append_nil, dropOnePad_no_pad xs h, dropOnePad_no_pad xs h]
  · unfold dropPads
    rw [dropOnePad_concat, dropOnePad_no_pad xs h]
  · unfold dropPads
    have h2 : xs ++ ['=', '='] = (xs ++ ['=']) ++ ['='] :=
      (List.append_assoc xs ['='] ['=']).symm
    rw [h2, dropOnePad_concat, dropOnePad_concat]

/-- decode inverts encode on every byte sequence. -/
theorem decode_encode (bs : List Nat) (h : ∀ b ∈ bs, b < 256) :
    decode (encode bs) = .ok bs := by
  have hnopad : ∀ c ∈ (bytesToSextets bs).map sextetToChar, c ≠ '=' := by
    intro c hc
    obtain ⟨n, _, rfl⟩ := List.mem_map.mp hc
    exact b64_no_pad _ (sextetToChar_mem n)
  simp only [decode, encode, atobModel, filter_js_btoa, filter_ascii_btoa]
  rw [if_pos (btoaModel_length_mod bs), btoaModel_eq bs,
    dropPads_append _ hnopad _ (padChars_cases bs),
    if_neg (by simpa using bytesToSextets_length_mod bs),
    charsToSextets_map _ (bytesToSextets_lt bs h)]
  exact congrArg Except.ok (sextetsToBytes_bytesToSextets bs h)

/-- C6: Codec round-trip: for every byte sequence,
encode (decode (encode bytes)) equals encode bytes; decode strips
embedded whitespace before decoding (so it only depends on the
whitespace-stripped input) and is the inverse of encode on well-formed
input. -/
theorem C6_codec_round_trip (bs : List Nat) (h : ∀ b ∈ bs, b < 256) :
    (decode (encode bs)).map encode = .ok (encode bs) ∧
    decode (encode bs) = .ok bs ∧
    ∀ s : Str, decode (s.filter (fun c => !jsWhitespace.contains c)) = decode s := by
  refine ⟨?_, decode_encode bs h, ?_⟩
  · rw [decode_encode bs h]
    rfl
  · intro s
    unfold decode
    rw [List.filter_filter]
    simp

/-- The round trip evaluated on the bytes of "Man" (base64 "TWFu"). -/
theorem C6_codec_round_trip_witness :
    (decode (encode [77, 97, 110])).map encode = .ok (encode [77, 97, 110]) ∧
    decode (encode [77, 97, 110]) = .ok [77, 97, 110] := by
  have h := C6_codec_round_trip [77, 97, 110] (by decide)
  exact ⟨h.1, h.2.1⟩

/-! ### PCM decode lemmas -/

theorem toInt16List_length : ∀ bs : List Nat,
    (toInt16List bs).length = bs.length / 2
  | [] => rfl
  | [_] => by simp [toInt16List]
  | _ :: _ :: rest => by
      simp only [toInt16List, List.length_cons, toInt16List_length rest]
      omega

theorem toInt16List_bounds : ∀ bs : List Nat, (∀ b ∈ bs, b < 256) →
    ∀ x ∈ toInt16List bs, -32768 ≤ x ∧ x < 32768
  | [], _ => by simp [toInt16List]
  | [_], _ => by simp [toInt16List]
  | b0 :: b1 :: rest, h => by
      have hb0 : b0 < 256 := h b0 (by simp)
      have hb1 : b1 < 256 := h b1 (by simp)
      have ih := toInt16List_bounds rest (fun b hb => h b (by simp [hb]))
      intro x hx
      rcases List.mem_cons.mp hx with rfl | hx
      · unfold int16OfBytes
        split <;> omega
      · exact ih x hx

theorem toInt16List_dropLast_odd : ∀ bs : List Nat, bs.length % 2 = 1 →
    toInt16List bs = toInt16List bs.dropLast
  | [], h => by simp at h
  | [_], _ => rfl
  | b0 :: b1 :: rest, h => by
      cases rest with
      | nil => simp at h
      | cons c cs =>
          have hlen : (c :: cs).length % 2 = 1 := by
            simp only [List.length_cons] at h ⊢
            omega
          have ih := toInt16List_dropLast_odd (c :: cs) hlen
          simp only [toInt16List, List.dropLast, ih]

theorem getD_range_map {α : Type} (f : Nat → α) (d : α) (n i : Nat) (h : i < n) :
    ((List.range n).map f).getD i d = f i := by
  have hl : i < ((List.range n).map f).length := by simpa using h
  rw [List.getD_eq_getElem _ _ hl]
  simp

theorem decodeAudioData_four_byte_mono :
    decodeAudioData [0, 0, 0, 128] 24000 1 = .ok ⟨24000, 1, 2, [[0, -1]]⟩ := by
  have h1 : toInt16List [0, 0, 0, 128] = [0, -32768] := by
    norm_num [toInt16List, int16OfBytes]
  simp only [decodeAudioData, h1]
  norm_num [List.range_succ, List.getD]

/-- C5: PCM decode postconditions: decodeAudioData fails exactly when the
input is shorter than 2 bytes or floor(floor(byteLength/2)/channelCount)
is zero; on success every sample is the little-endian signed 16-bit value
at its interleave index (missing indices giving silence) divided by
32768 and lies in [-1, 1]; a trailing odd byte is truncated; and the
4-byte mono input [0, 0, 0, 128] yields a 2-frame buffer. -/
theorem C5_pcm_decode (data : List Nat) (sr cc : Nat) (hcc : 1 ≤ cc)
    (hb : ∀ b ∈ data, b < 256) :
    ((∃ e, decodeAudioData data sr cc = .error e) ↔
      data.length < 2 ∨ data.length / 2 / cc = 0) ∧
    (∀ buf, decodeAudioData data sr cc = .ok buf →
      buf.frameCount = data.length / 2 / cc ∧
      buf.channelData.length = cc ∧
      ∀ ch i, ch < cc → i < buf.frameCount →
        (buf.channelData.getD ch []).getD i 0 =
          ((toInt16List data).getD (i * cc + ch) 0 : ℚ) / 32768 ∧
        -1 ≤ (buf.channelData.getD ch []).getD i 0 ∧
        (buf.channelData.getD ch []).getD i 0 ≤ 1) ∧
    (data.length % 2 = 1 →
      decodeAudioData data sr cc = decodeAudioData data.dropLast sr cc) ∧
    decodeAudioData [0, 0, 0, 128] 24000 1 = .ok ⟨24000, 1, 2, [[0, -1]]⟩ := by
  have hsample : ∀ idx : Nat,
      -1 ≤ ((toInt16List data).getD idx 0 : ℚ) / 32768 ∧
      ((toInt16List data).getD idx 0 : ℚ) / 32768 ≤ 1 := by
    intro idx
    have hq : -32768 ≤ (toInt16List data).getD idx 0 ∧
        (toInt16List data).getD idx 0 < 32768 := by
      by_cases hi : idx < (toInt16List data).length
      · rw [List.getD_eq_getElem _ _ hi]
        exact toInt16List_bounds data hb _ (List.getElem_mem hi)
      · rw [List.getD_eq_default _ _ (by omega)]
        decide
    have h32 : (0 : ℚ) < 32768 := by norm_num
    constructor
    · rw [le_div_iff₀ h32]
      have h2 : (-32768 : ℚ) ≤ ((toInt16List data).getD idx 0 : ℚ) := by
        exact_mod_cast hq.1
      linarith
    · rw [div_le_one h32]
      have h2 : ((toInt16List data).getD idx 0 : ℚ) < 32768 := by
        exact_mod_cast hq.2
      linarith
  refine ⟨?_, ?_, ?_, decodeAudioData_four_byte_mono⟩
  · simp only [decodeAudioData, toInt16List_length]
    split
    · simp_all
    · split
      · simp_all
      · simp_all
  · intro buf hbuf
    simp only [decodeAudioData] at hbuf
    split at hbuf
    · simp at hbuf
    · split at hbuf
      · simp at hbuf
      · rename_i hlen hframe
        rw [Except.ok.injEq] at hbuf
        subst hbuf
        refine ⟨by simp [toInt16List_length], by simp, ?_⟩
        intro ch i hch hi
        simp only at hi
        rw [getD_range_map _ _ _ _ hch, getD_range_map _ _ _ _
          (by simpa [toInt16List_length] using hi)]
        exact ⟨rfl, hsample _⟩
  · intro hodd
    have ht := toInt16List_dropLast_odd data hodd
    simp only [decodeAudioData, ← ht]
    by_cases h1 : data.length < 2
    · have h2 : data.dropLast.length < 2 := by
        rw [List.length_dropLast]
        omega
      rw [if_pos h1, if_pos h2]
    · have h2 : ¬ data.dropLast.length < 2 := by
        rw [List.length_dropLast]
        omega
      rw [if_neg h1, if_neg h2]

/-- C5 evaluated on the 4-byte mono input of the spec scenario. -/
theorem C5_pcm_decode_witness :
    ¬ (∃ e, decodeAudioData [0, 0, 0, 128] 24000 1 = .error e) := by
  have h := (C5_pcm_decode [0, 0, 0, 128] 24000 1 (by decide) (by decide)).1
  intro he
  have := h.mp he
  revert this
  decide

/-! ### Playback engine: stop vs natural end (playGlobalAudio /
stopGlobalAudio in audio.ts).  Callbacks are identified by numbers; the
second component of each step is the list of completion callbacks
invoked during the step. -/

/-- A buffer source node as the engine sees it: the currently attached
onended handler (none once detached) and whether its ended event has
already fired. -/
structure SourceNode where
  cb : Option Nat
  ended : Bool
  deriving DecidableEq

/-- The module-level `globalSource` variable. -/
structure EngineState where
  src : Option SourceNode
  deriving DecidableEq

inductive EngineEv where
  | play (cb : Nat)
  | stop
  | naturalEnd
  deriving DecidableEq

/-- stopGlobalAudio: if a source exists, first set `onended = null`, then
halt the node — halting fires the currently attached handler, which has
just been cleared, so nothing is invoked — then disconnect and clear
globalSource.  With no source it is a no-op (plus a native-speech
cancel, which has no completion callback). -/
def stopGlobalAudio (s : EngineState) : EngineState × List Nat :=
  match s.src with
  | none => (s, [])
  | some u =>
      let detached : SourceNode := { u with cb := none }
      let fired := if detached.ended then [] else detached.cb.toList
      (⟨none⟩, fired)

/-- playGlobalAudio: stop any existing audio first, then start a fresh
source from offset zero with the completion callback attached. -/
def playGlobalAudio (s : EngineState) (cb : Nat) : EngineState × List Nat :=
  let p := stopGlobalAudio s
  ({ src := some ⟨some cb, false⟩ }, p.2)

/-- Natural end of playback: the ended event fires the attached handler
once; audio.ts does not clear globalSource here, the node merely stays
ended. -/
def naturalEndStep (s : EngineState) : EngineState × List Nat :=
  match s.src with
  | none => (s, [])
  | some u =>
      if u.ended then (s, [])
      else ({ src := some { u with ended := true } }, u.cb.toList)

def engineStep (s : EngineState) : EngineEv → EngineState × List Nat
  | .play cb => playGlobalAudio s cb
  | .stop => stopGlobalAudio s
  | .naturalEnd => naturalEndStep s

def engineRun (s : EngineState) : List EngineEv → EngineState × List Nat
  | [] => (s, [])
  | e :: evs =>
      let p1 := engineStep s e
      let p2 := engineRun p1.1 evs
      (p2.1, p1.2 ++ p2.2)

/-- Whether the state can still fire callback cb on a natural end. -/
def canFire (s : EngineState) (cb : Nat) : Bool :=
  match s.src with
  | some u => u.cb == some cb && !u.ended
  | none => false

theorem engineStep_count (s : EngineState) (e : EngineEv) (cb : Nat)
    (h : ∀ c, e = EngineEv.play c → c ≠ cb) :
    (engineStep s e).2.count cb +
      (if canFire (engineStep s e).1 cb then 1 else 0) ≤
      (if canFire s cb then 1 else 0) := by
  cases e with
  | play c =>
      have hc : c ≠ cb := h c rfl
      cases hs : s.src with
      | none =>
          simp [engineStep, playGlobalAudio, stopGlobalAudio, canFire, hs, hc]
      | some u =>
          simp [engineStep, playGlobalAudio, stopGlobalAudio, canFire, hs, hc]
  | stop =>
      cases hs : s.src with
      | none => simp [engineStep, stopGlobalAudio, canFire, hs]
      | some u => simp [engineStep, stopGlobalAudio, canFire, hs]
  | naturalEnd =>
      cases hs : s.src with
      | none => simp [engineStep, naturalEndStep, canFire, hs]
      | some u =>
          cases he : u.ended with
          | true => simp [engineStep, naturalEndStep, canFire, hs, he]
          | false =>
              cases hcb : u.cb with
              | none => simp [engineStep, naturalEndStep, canFire, hs, he, hcb]
              | some d =>
                  by_cases hd : d = cb
                  · subst hd
                    simp [engineStep, naturalEndStep, canFire, hs, he, hcb]
                  · simp [engineStep, naturalEndStep, canFire, hs, he, hcb,
                      List.count_singleton, hd]

theorem engineRun_count : ∀ (evs : List EngineEv) (s : EngineState) (cb : Nat),
    (∀ c, EngineEv.play c ∈ evs → c ≠ cb) →
    (engineRun s evs).2.count cb ≤ (if canFire s cb then 1 else 0)
  | [], s, cb, _ => by simp [engineRun]
  | e :: evs, s, cb, h => by
      have h1 : ∀ c, e = EngineEv.play c → c ≠ cb := by
        intro c hec
        exact h c (by simp [hec])
      have h2 := engineStep_count s e cb h1
      have ih := engineRun_count evs (engineStep s e).1 cb
        (fun c hc => h c (by simp [hc]))
      simp only [engineRun, List.count_append]
      omega

theorem playGlobalAudio_state (s : EngineState) (cb : Nat) :
    (playGlobalAudio s cb).1 = ⟨some ⟨some cb, false⟩⟩ := rfl

theorem engineRun_cons (s : EngineState) (e : EngineEv) (evs : List EngineEv) :
    engineRun s (e :: evs) =
      ((engineRun (engineStep s e).1 evs).1,
        (engineStep s e).2 ++ (engineRun (engineStep s e).1 evs).2) := rfl

/-- C2: stopGlobalAudio never invokes the completion callback (it
detaches the handler before halting the node); it is a no-op when
nothing is playing; and for a session started by playGlobalAudio with
callback cb, cb fires at most once across any sequence of later events,
and exactly once when natural completion follows. -/
theorem C2_stop_vs_natural_end :
    (∀ s : EngineState, (engineStep s .stop).2 = []) ∧
    engineStep ⟨none⟩ .stop = (⟨none⟩, []) ∧
    ∀ (s : EngineState) (cb : Nat) (evs : List EngineEv),
      (∀ c, EngineEv.play c ∈ evs → c ≠ cb) →
      (engineRun s (.play cb :: evs)).2.count cb ≤ 1 ∧
      (engineRun s (.play cb :: .naturalEnd :: evs)).2.count cb = 1 := by
  refine ⟨?_, rfl, ?_⟩
  · intro s
    cases hs : s.src with
    | none => simp [engineStep, stopGlobalAudio, hs]
    | some u => simp [engineStep, stopGlobalAudio, hs]
  · intro s cb evs h
    have hplay : (engineStep s (.play cb)).1 = ⟨some ⟨some cb, false⟩⟩ := rfl
    have hout : (engineStep s (.play cb)).2.count cb = 0 := by
      cases hs : s.src with
      | none => simp [engineStep, playGlobalAudio, stopGlobalAudio, hs]
      | some u => simp [engineStep, playGlobalAudio, stopGlobalAudio, hs]
    constructor
    · have hrest := engineRun_count evs (⟨some ⟨some cb, false⟩⟩ : EngineState) cb h
      simp [canFire] at hrest
      rw [engineRun_cons, List.count_append, hout, hplay]
      omega
    · have hnat : engineStep (⟨some ⟨some cb, false⟩⟩ : EngineState) .naturalEnd =
          (⟨some ⟨some cb, true⟩⟩, [cb]) := rfl
      have hrest := engineRun_count evs (⟨some ⟨some cb, true⟩⟩ : EngineState) cb h
      simp [canFire] at hrest
      rw [engineRun_cons, List.count_append, hout, hplay, engineRun_cons,
        List.count_append, hnat]
      simp [hrest]

/-- C2 evaluated: a session that plays, naturally ends, is stopped and
sees a spurious extra ended event fires its callback exactly once. -/
theorem C2_stop_vs_natural_end_witness :
    (engineRun ⟨none⟩ [.play 7, .naturalEnd, .stop, .naturalEnd]).2.count 7 = 1 := by
  have h := C2_stop_vs_natural_end.2.2 ⟨none⟩ 7 [.stop, .naturalEnd]
    (by intro c hc; simp at hc)
  exact h.2

/-! ### Source-level machine for the single-active-stream property (C1).

`speak` in audio.ts is asynchronous: after cancelling native speech and
stopping Web Audio it awaits `waitForVoices()` (a genuine suspension —
the voiceschanged event or a 2-second timeout), and its continuation
then starts the utterance WITHOUT stopping Web Audio again or
re-checking.  The machine therefore splits speak into speakBegin
(synchronous prefix) and speakResume (continuation); playGlobalAudio and
stopGlobalAudio contain no await and are single events. -/

structure Sources where
  web : Bool
  native : Bool
  pendingSpeak : Bool
  deriving DecidableEq

inductive SrcEv where
  | play
  | stopAll
  | speakBegin
  | speakResume
  | webEnd
  | nativeEnd
  deriving DecidableEq

/-- stopNativeAudio: window.speechSynthesis.cancel(). -/
def cancelNative (s : Sources) : Sources := { s with native := false }

/-- stopGlobalAudio at source level: silence the Web Audio source, then
cancel native speech. -/
def stopAllSources (s : Sources) : Sources := cancelNative { s with web := false }

def srcStep (s : Sources) : SrcEv → Sources
  | .play => { stopAllSources s with web := true }
  | .stopAll => stopAllSources s
  | .speakBegin => { stopAllSources (cancelNative s) with pendingSpeak := true }
  | .speakResume =>
      if s.pendingSpeak then { s with pendingSpeak := false, native := true } else s
  | .webEnd => { s with web := false }
  | .nativeEnd => { s with native := false }

def srcRun (s : Sources) (evs : List SrcEv) : Sources := evs.foldl srcStep s

def initSources : Sources := ⟨false, false, false⟩

/-- C1 (violation witness): a speak() that begins while voices are still
loading, a playGlobalAudio() issued during that wait, and speak's
continuation leave the Web Audio source AND native speech simultaneously
active — two audio sources at one instant, refuting the
at-most-one-active-stream claim. -/
theorem C1_single_stream_violation :
    (srcRun initSources [.speakBegin, .play, .speakResume]).web = true ∧
    (srcRun initSources [.speakBegin, .play, .speakResume]).native = true ∧
    (srcRun initSources [.speakBegin, .play]).native = false ∧
    (srcRun initSources [.speakBegin, .play]).web = true := by
  refine ⟨rfl, rfl, rfl, rfl⟩

/-! ### Native speech fallback: speak (C9) -/

structure Voice where
  lang : Str
  deriving DecidableEq

def langMap : List (Str × Str) :=
  [(("en").data, ("en-IN").data), (("te").data, ("te-IN").data),
   (("hi").data, ("hi-IN").data), (("ta").data, ("ta-IN").data),
   (("kn").data, ("kn-IN").data)]

def lookupAssoc : List (Str × Str) → Str → Option Str
  | [], _ => none
  | (k, v) :: rest, l => if l = k then some v else lookupAssoc rest l

def targetLangOf (language : Str) : Str :=
  (lookupAssoc langMap language).getD (("en-US").data)

/-- startsWith s p: p is an initial segment of s (String.startsWith). -/
def strStartsWith : Str → Str → Bool
  | _, [] => true
  | [], _ :: _ => false
  | c :: cs, p :: ps => c == p && strStartsWith cs ps

/-- Voice selection in speak: exact target-locale match, then any voice
whose tag starts with the short language code, then en-IN, else none
(browser default). -/
def selectVoice (voices : List Voice) (language : Str) : Option Voice :=
  let target := targetLangOf language
  match voices.find? (fun v => v.lang == target) with
  | some v => some v
  | none =>
      match voices.find? (fun v => strStartsWith v.lang language) with
      | some v => some v
      | none => voices.find? (fun v => v.lang == ("en-IN").data)

/-- How the single utterance ends: naturally, with a synthesis error, or
canceled (which surfaces as an error event). -/
inductive UttFate where
  | ended
  | errored
  | canceled
  deriving DecidableEq

inductive SpeakEff where
  | cancelNativeEff
  | stopWebEff
  | utter (text : Str) (voice : Option Voice)
  | onEndCall
  deriving DecidableEq

/-- Both the utterance's onend and onerror handlers call onEnd, so every
fate produces exactly one completion call. -/
def utteranceEndCalls (fate : UttFate) : List SpeakEff :=
  match fate with
  | .ended => [.onEndCall]
  | .errored => [.onEndCall]
  | .canceled => [.onEndCall]

/-- speak from audio.ts as an effect trace: without speechSynthesis
support it warns and calls onEnd immediately; otherwise it cancels prior
native speech, stops Web Audio, awaits voices, and queues ONE utterance
carrying the entire text (there is no chunking loop), whose completion
or error invokes onEnd. -/
def speakTrace (supported : Bool) (voices : List Voice) (text language : Str)
    (fate : UttFate) : List SpeakEff :=
  if supported then
    [.cancelNativeEff, .stopWebEff, .utter text (selectVoice voices language)] ++
      utteranceEndCalls fate
  else [.onEndCall]

def utterTexts (effs : List SpeakEff) : List Str :=
  effs.filterMap (fun e =>
    match e with
    | .utter t _ => some t
    | _ => none)

def onEndCount (effs : List SpeakEff) : Nat :=
  (effs.filter (fun e => e == SpeakEff.onEndCall)).length

/-- A long multi-sentence narration (25 sentences, 675 characters). -/
def longNarration : Str :=
  (List.replicate 25 (("Visit the holy temple now. ").data)).flatten

set_option maxRecDepth 8192 in
/-- C9 (counterexample): on a long multi-sentence text, speak queues a
single utterance carrying the whole text — it does not split the text
into sentence-bounded chunks spoken sequentially. -/
theorem C9_no_chunking_counterexample :
    utterTexts (speakTrace true [] longNarration (("te").data) .ended) =
      [longNarration] ∧
    400 < longNarration.length ∧
    1 < longNarration.count '.' := by
  refine ⟨rfl, by decide, by decide⟩

/-- C9 (amended): speak speaks the whole text as one utterance (no
chunking); onEnd fires exactly once — after the utterance completes or
errors, or immediately when the platform has no speech capability — and
an utterance error still yields exactly one onEnd call. -/
theorem C9_speak_single_utterance (supported : Bool) (voices : List Voice)
    (text language : Str) (fate : UttFate) :
    onEndCount (speakTrace supported voices text language fate) = 1 ∧
    utterTexts (speakTrace supported voices text language fate) =
      (if supported then [text] else []) := by
  cases supported <;> cases fate <;>
    simp [speakTrace, utteranceEndCalls, utterTexts, onEndCount]

/-! ### Persistent cache store: IndexedDB (C8) -/

inductive DBFailure where
  | unsupported
  | openFailed
  | requestFailed
  deriving DecidableEq

/-- The storage environment: platform support, injected failures for
open / read / write, and the stored key-value pairs. -/
structure DBEnv where
  supported : Bool
  openFails : Bool
  readFails : Bool
  writeFails : Bool
  store : List (Str × Str)
  deriving DecidableEq

/-- openDB: rejects when indexedDB is undefined or the open request
errors. -/
def openDB (env : DBEnv) : Except DBFailure Unit :=
  if env.supported = false then .error .unsupported
  else if env.openFails then .error .openFailed
  else .ok ()

def lookupStore : List (Str × Str) → Str → Option Str
  | [], _ => none
  | (k, v) :: rest, key => if key = k then some v else lookupStore rest key

/-- The raw IndexedDB get request, which may fire onerror. -/
def rawGet (env : DBEnv) (key : Str) : Except DBFailure (Option Str) :=
  if env.readFails then .error .requestFailed else .ok (lookupStore env.store key)

/-- getAudioFromDB: the whole open / transaction / get sequence sits in a
try/catch returning null, the request's onerror resolves null, and
`request.result as string || null` maps an empty result to null — so
every storage-layer failure becomes an ordinary null, never an
exception. -/
def getAudioFromDB (env : DBEnv) (key : Str) : Except DBFailure (Option Str) :=
  match openDB env with
  | .error _ => .ok none
  | .ok _ =>
      match rawGet env key with
      | .error _ => .ok none
      | .ok v =>
          .ok (match v with
            | some s => if s = [] then none else some s
            | none => none)

/-- put overwrites the entry for the key; lookups take the newest pair. -/
def insertStore (store : List (Str × Str)) (key v : Str) : List (Str × Str) :=
  (key, v) :: store

/-- saveAudioToDB: open and put inside try/catch; any failure (including
a failing put request, which is fire-and-forget) is swallowed, leaving
the store unchanged. -/
def saveAudioToDB (env : DBEnv) (key v : Str) : Except DBFailure DBEnv :=
  match openDB env with
  | .error _ => .ok env
  | .ok _ =>
      if env.writeFails then .ok env
      else .ok { env with store := insertStore env.store key v }

/-- C8: the persistent store never throws: get returns ok for every
environment and yields null on any storage-layer failure; put returns ok
for every environment and silently leaves the store unchanged on any
failure. -/
theorem C8_store_never_throws (env : DBEnv) (key v : Str) :
    (∃ r, getAudioFromDB env key = .ok r) ∧
    (∃ env2, saveAudioToDB env key v = .ok env2) ∧
    ((env.supported = false ∨ env.openFails = true ∨ env.readFails = true) →
      getAudioFromDB env key = .ok none) ∧
    ((env.supported = false ∨ env.openFails = true ∨ env.writeFails = true) →
      saveAudioToDB env key v = .ok env) := by
  unfold getAudioFromDB saveAudioToDB openDB rawGet
  rcases env with ⟨sup, opf, ref, wrf, store⟩
  cases sup <;> cases opf <;> cases ref <;> cases wrf <;>
    simp_all

/-- C8 applied to a storage layer with no IndexedDB support. -/
theorem C8_store_never_throws_witness :
    getAudioFromDB ⟨false, false, false, false, []⟩ (("en-temple").data) =
      .ok none ∧
    saveAudioToDB ⟨false, false, false, false, []⟩ (("en-temple").data)
      (("QQ==").data) = .ok ⟨false, false, false, false, []⟩ := by
  have h := C8_store_never_throws ⟨false, false, false, false, []⟩
    (("en-temple").data) (("QQ==").data)
  exact ⟨h.2.2.1 (.inl rfl), h.2.2.2 (.inl rfl)⟩

/-! ### Synthesis orchestrator: handleToggleAudio (PlacesSection.tsx).

The handler is split at its genuine suspension points — the
IndexedDB read and the two remote generateContent calls.  The awaits of
decodeAudioData / saveAudioToDB resolve in microtasks, which the
event loop drains before any further user-initiated call can run, so
they stay inside their enclosing segment.  isMounted is true throughout
(teardown is not modelled). -/

/-- Outcome of one remote generateContent call: a response carrying
inlineData.data, a response without audio data, or a thrown error
(caught by the surrounding try/catch, leaving base64Audio undefined). -/
inductive RemoteOutcome where
  | payload (base64 : Str)
  | empty
  | failure
  deriving DecidableEq

/-- `response?.candidates?.[0]?.content?.parts?.[0]?.inlineData?.data`. -/
def remoteData : RemoteOutcome → Option Str
  | .payload s => some s
  | .empty => none
  | .failure => none

/-- Per-request environment: the persistent-store content for the cache
key and the outcomes of the primary and retry remote calls, plus the
localized place content. -/
structure ReqEnv where
  dbGet : Option Str
  remote1 : RemoteOutcome
  remote2 : RemoteOutcome
  name : Str
  description : Str
  importance : Str
  deriving DecidableEq

structure ReqCtx where
  token : Nat
  placeId : Str
  language : Str
  env : ReqEnv
  deriving DecidableEq

/-- .replace(/["']/g, "") — the double-quote and apostrophe characters. -/
def removeQuotes (s : Str) : Str :=
  s.filter (fun c => !(c == Char.ofNat 34 || c == Char.ofNat 39))

def isJsSpace (c : Char) : Bool := jsWhitespace.contains c

/-- String.prototype.trim: drop whitespace from both ends. -/
def trimStr (s : Str) : Str :=
  ((s.dropWhile isJsSpace).reverse.dropWhile isJsSpace).reverse

/-- Line 232: `${name}. ${description} ${importance}` over the trimmed
pieces, quote-stripped and trimmed. -/
def primaryText (e : ReqEnv) : Str :=
  trimStr (removeQuotes
    (trimStr e.name ++ (". ").data ++ trimStr e.description ++ (" ").data ++
      trimStr e.importance))

/-- Line 260: `${name}. Please visit this sacred place.`, quote-stripped
and trimmed. -/
def simplifiedText (e : ReqEnv) : Str :=
  trimStr (removeQuotes
    (trimStr e.name ++ (". Please visit this sacred place.").data))

/-- Lines 304-308: the catch-block fallback text, rebuilt from the raw
content without quote stripping or trimming. -/
def fallbackText (e : ReqEnv) : Str :=
  e.name ++ (". ").data ++ e.description ++ (" ").data ++ e.importance

/-- Observable actions of the handler, in program order. -/
inductive Eff where
  | unlockCtx
  | stopAudioAll
  | dbReadReq (key : Str)
  | playBuf (buf : AudioBuf)
  | setPlaying (v : Option Str)
  | setLoading (v : Option Str)
  | remoteCall (text : Str)
  | dbWrite (key : Str) (payload : Str)
  | speakNative (text : Str)
  deriving DecidableEq

/-- Component state shared by all requests of the surface: the active
request token ref, the two pieces of React state, and the module-level
memory cache. -/
structure OrchState where
  activeRequestId : Option Nat
  playingPlaceId : Option Str
  loadingPlaceId : Option Str
  audioCache : List (Str × AudioBuf)
  deriving DecidableEq

def cacheLookup : List (Str × AudioBuf) → Str → Option AudioBuf
  | [], _ => none
  | (k, v) :: rest, key => if key = k then some v else cacheLookup rest key

def cacheInsert (c : List (Str × AudioBuf)) (k : Str) (v : AudioBuf) :
    List (Str × AudioBuf) := (k, v) :: c

/-- `${language}-${place.id}`. -/
def cacheKeyOf (c : ReqCtx) : Str := c.language ++ (("-").data) ++ c.placeId

/-- decode followed by decodeAudioData at 24 kHz mono, the composition
both components apply to a base64 payload; either failure propagates to
the enclosing catch. -/
def decodeChain (payload : Str) : Except Str AudioBuf :=
  match decode payload with
  | .error e => .error e
  | .ok bytes => decodeAudioData bytes 24000 1

/-- Program counter of a request: the segment it will run when its
pending await resolves. -/
inductive PC where
  | start
  | afterDb
  | afterRemote1
  | afterRemote2
  deriving DecidableEq

/-- Lines 166-201: unlock; same-place toggle stops and returns; stop
current audio; mint the token and store it as active; memory-cache hit
plays immediately; otherwise set the loading state and start the
persistent-store read. -/
def segStart (c : ReqCtx) (st : OrchState) : OrchState × Option PC × List Eff :=
  if st.playingPlaceId = some c.placeId then
    ({ st with playingPlaceId := none }, none,
      [.unlockCtx, .stopAudioAll, .setPlaying none])
  else
    let st1 := { st with playingPlaceId := none, activeRequestId := some c.token }
    match cacheLookup st1.audioCache (cacheKeyOf c) with
    | some buf =>
        ({ st1 with playingPlaceId := some c.placeId }, none,
          [.unlockCtx, .stopAudioAll, .setPlaying none, .playBuf buf,
           .setPlaying (some c.placeId)])
    | none =>
        ({ st1 with loadingPlaceId := some c.placeId }, some .afterDb,
          [.unlockCtx, .stopAudioAll, .setPlaying none,
           .setLoading (some c.placeId), .dbReadReq (cacheKeyOf c)])

/-- Lines 201-253: after the store read. A stale token returns (the
finally clause then skips the loading reset).  A store hit decodes,
promotes into the memory cache and plays — a decode failure falls into
the catch, which re-checks the token and speaks the fallback text.  A
miss builds the narration text (empty text throws into the same catch)
and issues the primary remote call. -/
def segAfterDb (c : ReqCtx) (st : OrchState) : OrchState × Option PC × List Eff :=
  if st.activeRequestId ≠ some c.token then (st, none, [])
  else
    match c.env.dbGet with
    | some payload =>
        match decodeChain payload with
        | .ok buf =>
            ({ st with
                audioCache := cacheInsert st.audioCache (cacheKeyOf c) buf,
                playingPlaceId := some c.placeId,
                loadingPlaceId := none },
              none,
              [.playBuf buf, .setPlaying (some c.placeId), .setLoading none,
               .setLoading none])
        | .error _ =>
            ({ st with playingPlaceId := some c.placeId, loadingPlaceId := none },
              none,
              [.speakNative (fallbackText c.env), .setPlaying (some c.placeId),
               .setLoading none])
    | none =>
        if primaryText c.env = [] then
          ({ st with playingPlaceId := some c.placeId, loadingPlaceId := none },
            none,
            [.speakNative (fallbackText c.env), .setPlaying (some c.placeId),
             .setLoading none])
        else (st, some .afterRemote1, [.remoteCall (primaryText c.env)])

/-- Lines 278-298: a remote payload is saved to the persistent store
unconditionally (fire-and-forget, before the token check); only the
still-active request then decodes, caches, and plays — a decode failure
reaches the catch and speaks the fallback.  A superseded request
contributes nothing beyond the store write. -/
def haveAudio (c : ReqCtx) (st : OrchState) (b64 : Str) :
    OrchState × Option PC × List Eff :=
  if st.activeRequestId = some c.token then
    match decodeChain b64 with
    | .ok buf =>
        ({ st with
            audioCache := cacheInsert st.audioCache (cacheKeyOf c) buf,
            playingPlaceId := some c.placeId,
            loadingPlaceId := none },
          none,
          [.dbWrite (cacheKeyOf c) b64, .playBuf buf,
           .setPlaying (some c.placeId), .setLoading none])
    | .error _ =>
        ({ st with playingPlaceId := some c.placeId, loadingPlaceId := none },
          none,
          [.dbWrite (cacheKeyOf c) b64, .speakNative (fallbackText c.env),
           .setPlaying (some c.placeId), .setLoading none])
  else (st, none, [.dbWrite (cacheKeyOf c) b64])

/-- Lines 255-276: after the primary call.  Without audio data the retry
with the simplified text is issued (even for a superseded request — only
UI effects are token-gated, not network work). -/
def segAfterRemote1 (c : ReqCtx) (st : OrchState) :
    OrchState × Option PC × List Eff :=
  match remoteData c.env.remote1 with
  | some b64 => haveAudio c st b64
  | none => (st, some .afterRemote2, [.remoteCall (simplifiedText c.env)])

/-- After the retry call: audio is handled as above; otherwise the
"No audio data received" throw reaches the catch, which speaks the
fallback for the still-active request, and the finally clause resets the
loading state only for the still-active request. -/
def segAfterRemote2 (c : ReqCtx) (st : OrchState) :
    OrchState × Option PC × List Eff :=
  match remoteData c.env.remote2 with
  | some b64 => haveAudio c st b64
  | none =>
      if st.activeRequestId = some c.token then
        ({ st with playingPlaceId := some c.placeId, loadingPlaceId := none },
          none,
          [.speakNative (fallbackText c.env), .setPlaying (some c.placeId),
           .setLoading none])
      else (st, none, [])

def stepSeg (c : ReqCtx) (pc : PC) (st : OrchState) :
    OrchState × Option PC × List Eff :=
  match pc with
  | .start => segStart c st
  | .afterDb => segAfterDb c st
  | .afterRemote1 => segAfterRemote1 c st
  | .afterRemote2 => segAfterRemote2 c st

/-- Run one request to completion without interleaving (fuel-bounded; a
request has at most four segments). -/
def runReq : Nat → ReqCtx → Option PC → OrchState → OrchState × List Eff
  | 0, _, _, st => (st, [])
  | _ + 1, _, none, st => (st, [])
  | fuel + 1, c, some pc, st =>
      let r := stepSeg c pc st
      let rest := runReq fuel c r.2.1 r.1
      (rest.1, r.2.2 ++ rest.2)

/-- One complete, uninterleaved handleToggleAudio call. -/
def handleToggleAudio (c : ReqCtx) (st : OrchState) : OrchState × List Eff :=
  runReq 4 c (some .start) st

structure ReqThread where
  ctx : ReqCtx
  pc : Option PC
  deriving DecidableEq

def stepThread (t : ReqThread) (st : OrchState) :
    OrchState × ReqThread × List Eff :=
  match t.pc with
  | none => (st, t, [])
  | some pc =>
      let r := stepSeg t.ctx pc st
      (r.1, ⟨t.ctx, r.2.1⟩, r.2.2)

/-- Interleaved run of two requests A and B: the schedule picks which
request resumes at each step (false = A, true = B); each effect is
tagged with the issuing request. -/
def runTwo : List Bool → ReqThread → ReqThread → OrchState →
    OrchState × List (Bool × Eff)
  | [], _, _, st => (st, [])
  | false :: sched, a, b, st =>
      let r := stepThread a st
      let rest := runTwo sched r.2.1 b r.1
      (rest.1, r.2.2.map (fun e => (false, e)) ++ rest.2)
  | true :: sched, a, b, st =>
      let r := stepThread b st
      let rest := runTwo sched a r.2.1 r.1
      (rest.1, r.2.2.map (fun e => (true, e)) ++ rest.2)

/-- The UI-observable effects: starting playback, flipping the playing /
loading state, or invoking native speech (whose completion callback is
the completion handler of the claim). -/
def observable : Eff → Bool
  | .playBuf _ => true
  | .setPlaying _ => true
  | .setLoading _ => true
  | .speakNative _ => true
  | _ => false

def taggedObservables (tag : Bool) (log : List (Bool × Eff)) : List Eff :=
  (log.filter (fun p => p.1 == tag && observable p.2)).map (fun p => p.2)

def isSynthEff : Eff → Bool
  | .remoteCall _ => true
  | .speakNative _ => true
  | _ => false

def isRemoteEff : Eff → Bool
  | .remoteCall _ => true
  | _ => false

def isPlayEff : Eff → Bool
  | .playBuf _ => true
  | _ => false

/-! ### VirtualGuide: fetchAndPlayAudio (VirtualGuide.tsx), the second
call site of the fallback chain.  Loading / status flips are omitted;
the chain of synthesis attempts and the resulting playback or native
fallback are modelled. -/

/-- `${placeContent.name}. ${placeContent.importance}`.trim(). -/
def vgPrimaryText (name importance : Str) : Str :=
  trimStr (name ++ (". ").data ++ importance)

/-- `${placeContent.name}. Please visit this holy place.`.trim(). -/
def vgSimpleText (name : Str) : Str :=
  trimStr (name ++ (". Please visit this holy place.").data)

/-- fetchAndPlayAudio: primary call; without audio data one retry with
the simplified text; with audio, decode and play (a decode failure falls
into the catch and speaks the primary text); with no audio at all,
native speech of the primary text. -/
def fetchAndPlayAudio (name importance : Str) (r1 r2 : RemoteOutcome) :
    List Eff :=
  let primaryT := vgPrimaryText name importance
  let handle : Str → List Eff := fun b64 =>
    match decodeChain b64 with
    | .ok buf => [.playBuf buf]
    | .error _ => [.speakNative primaryT]
  match remoteData r1 with
  | some b64 => .remoteCall primaryT :: handle b64
  | none =>
      match remoteData r2 with
      | some b64 =>
          .remoteCall primaryT :: .remoteCall (vgSimpleText name) :: handle b64
      | none =>
          [.remoteCall primaryT, .remoteCall (vgSimpleText name),
           .speakNative primaryT]

/-! ### Supersession lemmas (C3) -/

/-- A segment of a superseded request (the active token no longer
matches) changes no state and produces no observable effect --- its
remaining effects are at most network calls and the fire-and-forget
store write. -/
theorem stepSeg_superseded (c : ReqCtx) (pc : PC) (st : OrchState)
    (hpc : pc ≠ PC.start) (htok : st.activeRequestId ≠ some c.token) :
    (stepSeg c pc st).1 = st ∧
    (stepSeg c pc st).2.2.filter observable = [] ∧
    (stepSeg c pc st).2.1 ≠ some PC.start := by
  cases pc with
  | start => exact absurd rfl hpc
  | afterDb => simp [stepSeg, segAfterDb, htok]
  | afterRemote1 =>
      unfold stepSeg segAfterRemote1
      cases hr : remoteData c.env.remote1 with
      | none => simp [observable]
      | some b64 => simp [haveAudio, htok, observable]
  | afterRemote2 =>
      unfold stepSeg segAfterRemote2
      cases hr : remoteData c.env.remote2 with
      | none => simp [htok]
      | some b64 => simp [haveAudio, htok, observable]

/-- No segment ever schedules the start segment again. -/
theorem stepSeg_no_start (c : ReqCtx) (pc : PC) (st : OrchState) :
    (stepSeg c pc st).2.1 ≠ some PC.start := by
  cases pc with
  | start =>
      simp only [stepSeg]
      unfold segStart
      split
      · simp
      · cases hl : cacheLookup st.audioCache (cacheKeyOf c) <;> simp [hl]
  | afterDb =>
      simp only [stepSeg]
      unfold segAfterDb
      split
      · simp
      · cases hg : c.env.dbGet with
        | some p => cases hd : decodeChain p <;> simp [hg, hd]
        | none => simp only [hg]; split <;> simp
  | afterRemote1 =>
      simp only [stepSeg]
      unfold segAfterRemote1
      cases hr : remoteData c.env.remote1 with
      | none => simp [hr]
      | some b =>
          simp only [hr]
          unfold haveAudio
          split
          · cases hd : decodeChain b <;> simp [hd]
          · simp
  | afterRemote2 =>
      simp only [stepSeg]
      unfold segAfterRemote2
      cases hr : remoteData c.env.remote2 with
      | none => simp only [hr]; split <;> simp
      | some b =>
          simp only [hr]
          unfold haveAudio
          split
          · cases hd : decodeChain b <;> simp [hd]
          · simp

/-- A segment either leaves the active token unchanged or installs its
own token (only the start segment does the latter). -/
theorem stepSeg_active (c : ReqCtx) (pc : PC) (st : OrchState) :
    (stepSeg c pc st).1.activeRequestId = st.activeRequestId ∨
    (stepSeg c pc st).1.activeRequestId = some c.token := by
  cases pc with
  | start =>
      simp only [stepSeg]
      unfold segStart
      split
      · simp
      · cases hl : cacheLookup st.audioCache (cacheKeyOf c) <;> simp [hl]
  | afterDb =>
      simp only [stepSeg]
      unfold segAfterDb
      split
      · simp
      · cases hg : c.env.dbGet with
        | some p => cases hd : decodeChain p <;> simp [hg, hd]
        | none => simp only [hg]; split <;> simp
  | afterRemote1 =>
      simp only [stepSeg]
      unfold segAfterRemote1
      cases hr : remoteData c.env.remote1 with
      | none => simp [hr]
      | some b =>
          simp only [hr]
          unfold haveAudio
          split
          · cases hd : decodeChain b <;> simp [hd]
          · simp
  | afterRemote2 =>
      simp only [stepSeg]
      unfold segAfterRemote2
      cases hr : remoteData c.env.remote2 with
      | none => simp only [hr]; split <;> simp
      | some b =>
          simp only [hr]
          unfold haveAudio
          split
          · cases hd : decodeChain b <;> simp [hd]
          · simp

theorem taggedObservables_append (tag : Bool) (l1 l2 : List (Bool × Eff)) :
    taggedObservables tag (l1 ++ l2) =
      taggedObservables tag l1 ++ taggedObservables tag l2 := by
  simp [taggedObservables, List.filter_append]

theorem taggedObservables_map_self (tag : Bool) (effs : List Eff) :
    taggedObservables tag (effs.map (fun e => (tag, e))) =
      effs.filter observable := by
  simp only [taggedObservables, List.filter_map, Function.comp_def, List.map_map]
  simp

theorem taggedObservables_map_other (tag tag2 : Bool) (h : tag2 ≠ tag)
    (effs : List Eff) :
    taggedObservables tag (effs.map (fun e => (tag2, e))) = [] := by
  simp only [taggedObservables, List.filter_map, Function.comp_def]
  simp [h]

/-- Once request A is superseded and past its start segment, no
interleaving of the two requests lets A contribute any observable
effect: playback, playing / loading flips and native speech from A are
all suppressed at every later resume point. -/
theorem runTwo_superseded : ∀ (sched : List Bool) (actx : ReqCtx)
    (apc : Option PC) (b : ReqThread) (st : OrchState),
    (∀ pc, apc = some pc → pc ≠ PC.start) →
    actx.token ≠ b.ctx.token →
    st.activeRequestId ≠ some actx.token →
    taggedObservables false (runTwo sched ⟨actx, apc⟩ b st).2 = []
  | [], _, _, _, _, _, _, _ => rfl
  | false :: sched, actx, apc, b, st, ha, hab, htok => by
      cases apc with
      | none =>
          have ih := runTwo_superseded sched actx none b st ha hab htok
          simpa [runTwo, stepThread, taggedObservables] using ih
      | some pc =>
          have hpc : pc ≠ PC.start := ha pc rfl
          have hsup := stepSeg_superseded actx pc st hpc htok
          have ih := runTwo_superseded sched actx (stepSeg actx pc st).2.1 b
            (stepSeg actx pc st).1
            (fun pc2 h2 => by
              intro he
              apply hsup.2.2
              rw [h2, he])
            hab (by rw [hsup.1]; exact htok)
          show taggedObservables false
            ((stepSeg actx pc st).2.2.map (fun e => (false, e)) ++
              (runTwo sched ⟨actx, (stepSeg actx pc st).2.1⟩ b
                (stepSeg actx pc st).1).2) = []
          rw [taggedObservables_append, taggedObservables_map_self, hsup.2.1, ih]
          rfl
  | true :: sched, actx, apc, b, st, ha, hab, htok => by
      obtain ⟨bctx, bpc⟩ := b
      cases bpc with
      | none =>
          have ih := runTwo_superseded sched actx apc ⟨bctx, none⟩ st ha hab htok
          simpa [runTwo, stepThread, taggedObservables] using ih
      | some pc =>
          have htok2 : (stepSeg bctx pc st).1.activeRequestId ≠ some actx.token := by
            rcases stepSeg_active bctx pc st with h | h
            · rw [h]; exact htok
            · rw [h]
              intro he
              injection he with he2
              exact hab he2.symm
          have ih := runTwo_superseded sched actx apc
            ⟨bctx, (stepSeg bctx pc st).2.1⟩ (stepSeg bctx pc st).1 ha hab htok2
          show taggedObservables false
            ((stepSeg bctx pc st).2.2.map (fun e => (true, e)) ++
              (runTwo sched ⟨actx, apc⟩ ⟨bctx, (stepSeg bctx pc st).2.1⟩
                (stepSeg bctx pc st).1).2) = []
          rw [taggedObservables_append,
            taggedObservables_map_other false true (by decide), ih]
          rfl

/-! ### Demo scenario: narrate A then narrate B issued during A's
persistent-store read, both keys present in the store. -/

def demoPayloadA : Str := ("AAAA").data

def demoPayloadB : Str := ("AAAAAAAA").data

def demoBufB : AudioBuf :=
  match decodeChain demoPayloadB with
  | .ok b => b
  | .error _ => ⟨0, 0, 0, []⟩

def demoEnvA : ReqEnv :=
  ⟨some demoPayloadA, .empty, .empty, ("Temple One").data,
    ("First description.").data, ("First importance.").data⟩

def demoEnvB : ReqEnv :=
  ⟨some demoPayloadB, .empty, .empty, ("Temple Two").data,
    ("Second description.").data, ("Second importance.").data⟩

def demoCtxA : ReqCtx := ⟨1, ("p1").data, ("en").data, demoEnvA⟩

def demoCtxB : ReqCtx := ⟨2, ("p2").data, ("en").data, demoEnvB⟩

def demoStart : OrchState := ⟨none, none, none, []⟩

/-- A starts, B starts (superseding A), A's store read resolves (and is
discarded), B's store read resolves and plays. -/
def demoRun : OrchState × List (Bool × Eff) :=
  runTwo [false, true, false, true] ⟨demoCtxA, some .start⟩
    ⟨demoCtxB, some .start⟩ demoStart

/-- C3: superseded-request suppression: once a later request B has
installed its token, every remaining segment of the earlier request A —
its resume points after the persistent-store read, after decode, and
after each remote response — produces no playback, no playing / loading
state change, and no native-speech (stale completion handler) call,
under every interleaving; and in the concrete A-then-B race only B's
playback is observable and B's state changes are the final ones. -/
theorem C3_superseded_suppression :
    (∀ (sched : List Bool) (actx : ReqCtx) (apc : Option PC) (b : ReqThread)
      (st : OrchState),
      (∀ pc, apc = some pc → pc ≠ PC.start) →
      actx.token ≠ b.ctx.token →
      st.activeRequestId ≠ some actx.token →
      taggedObservables false (runTwo sched ⟨actx, apc⟩ b st).2 = []) ∧
    demoRun.1.playingPlaceId = some (("p2").data) ∧
    demoRun.1.loadingPlaceId = none ∧
    demoRun.2.filter (fun p => isPlayEff p.2) = [(true, .playBuf demoBufB)] := by
  refine ⟨runTwo_superseded, rfl, rfl, rfl⟩

/-- C3 applied to a concrete superseded request resuming after its
store read. -/
theorem C3_superseded_suppression_witness :
    taggedObservables false
      (runTwo [false] ⟨demoCtxA, some PC.afterDb⟩ ⟨demoCtxB, some PC.afterDb⟩
        ⟨some 2, none, some (("p1").data), []⟩).2 = [] :=
  C3_superseded_suppression.1 [false] demoCtxA (some PC.afterDb)
    ⟨demoCtxB, some PC.afterDb⟩ ⟨some 2, none, some (("p1").data), []⟩
    (fun pc h => by
      injection h with h2
      subst h2
      decide)
    (by decide) (by decide)

/-! ### Fallback chain (C4) -/

theorem runReq_congr : ∀ (fuel : Nat) (c1 c2 : ReqCtx),
    (∀ pc st, stepSeg c1 pc st = stepSeg c2 pc st) →
    ∀ (opc : Option PC) (st : OrchState),
      runReq fuel c1 opc st = runReq fuel c2 opc st
  | 0, _, _, _, _, _ => rfl
  | _ + 1, _, _, _, none, _ => rfl
  | fuel + 1, c1, c2, h, some pc, st => by
      simp only [runReq]
      rw [h pc st, runReq_congr fuel c1 c2 h]

/-- C4: with the store empty, a remote chain that yields no audio drives
exactly one simplified-text retry and then native speech of the original
text; a throwing remote call produces the identical run as an empty
response, in both call sites (PlacesSection and VirtualGuide). -/
theorem C4_fallback_chain :
    (∀ (c : ReqCtx) (st : OrchState),
      c.env.dbGet = none →
      remoteData c.env.remote1 = none →
      remoteData c.env.remote2 = none →
      st.playingPlaceId ≠ some c.placeId →
      cacheLookup st.audioCache (cacheKeyOf c) = none →
      primaryText c.env ≠ [] →
      (handleToggleAudio c st).2.filter isSynthEff =
        [.remoteCall (primaryText c.env), .remoteCall (simplifiedText c.env),
         .speakNative (fallbackText c.env)]) ∧
    (∀ (tok : Nat) (pid lang : Str) (dbv : Option Str) (r2 : RemoteOutcome)
      (n d i : Str) (st : OrchState),
      handleToggleAudio ⟨tok, pid, lang, ⟨dbv, .empty, r2, n, d, i⟩⟩ st =
        handleToggleAudio ⟨tok, pid, lang, ⟨dbv, .failure, r2, n, d, i⟩⟩ st) ∧
    (∀ (tok : Nat) (pid lang : Str) (dbv : Option Str) (r1 : RemoteOutcome)
      (n d i : Str) (st : OrchState),
      handleToggleAudio ⟨tok, pid, lang, ⟨dbv, r1, .empty, n, d, i⟩⟩ st =
        handleToggleAudio ⟨tok, pid, lang, ⟨dbv, r1, .failure, n, d, i⟩⟩ st) ∧
    (∀ name importance : Str,
      fetchAndPlayAudio name importance .empty .empty =
        [.remoteCall (vgPrimaryText name importance),
         .remoteCall (vgSimpleText name),
         .speakNative (vgPrimaryText name importance)] ∧
      fetchAndPlayAudio name importance .failure .failure =
        fetchAndPlayAudio name importance .empty .empty) := by
  refine ⟨?_, ?_, ?_, fun name importance => ⟨rfl, rfl⟩⟩
  · intro c st h1 h2 h3 h4 h5 h6
    have e1 : stepSeg c PC.start st =
        ({ st with
            playingPlaceId := none
            activeRequestId := some c.token
            loadingPlaceId := some c.placeId }, some PC.afterDb,
          [.unlockCtx, .stopAudioAll, .setPlaying none,
           .setLoading (some c.placeId), .dbReadReq (cacheKeyOf c)]) := by
      simp [stepSeg, segStart, h4, h5]
    have e2 : stepSeg c PC.afterDb
        ({ st with
            playingPlaceId := none
            activeRequestId := some c.token
            loadingPlaceId := some c.placeId }) =
        ({ st with
            playingPlaceId := none
            activeRequestId := some c.token
            loadingPlaceId := some c.placeId }, some PC.afterRemote1,
          [.remoteCall (primaryText c.env)]) := by
      simp [stepSeg, segAfterDb, h1, h6]
    have e3 : stepSeg c PC.afterRemote1
        ({ st with
            playingPlaceId := none
            activeRequestId := some c.token
            loadingPlaceId := some c.placeId }) =
        ({ st with
            playingPlaceId := none
            activeRequestId := some c.token
            loadingPlaceId := some c.placeId }, some PC.afterRemote2,
          [.remoteCall (simplifiedText c.env)]) := by
      simp [stepSeg, segAfterRemote1, h2]
    have e4 : stepSeg c PC.afterRemote2
        ({ st with
            playingPlaceId := none
            activeRequestId := some c.token
            loadingPlaceId := some c.placeId }) =
        ({ st with
            playingPlaceId := some c.placeId
            activeRequestId := some c.token
            loadingPlaceId := none }, none,
          [.speakNative (fallbackText c.env), .setPlaying (some c.placeId),
           .setLoading none]) := by
      simp [stepSeg, segAfterRemote2, h3]
    simp only [handleToggleAudio, runReq, e1, e2, e3, e4]
    simp [isSynthEff]
  · intro tok pid lang dbv r2 n d i st
    apply runReq_congr
    intro pc st2
    cases pc <;>
      simp [stepSeg, segStart, segAfterDb, segAfterRemote1, segAfterRemote2,
        haveAudio, remoteData, cacheKeyOf, primaryText, simplifiedText,
        fallbackText]
  · intro tok pid lang dbv r1 n d i st
    apply runReq_congr
    intro pc st2
    cases pc <;>
      simp [stepSeg, segStart, segAfterDb, segAfterRemote1, segAfterRemote2,
        haveAudio, remoteData, cacheKeyOf, primaryText, simplifiedText,
        fallbackText]

/-- C4 applied to a concrete place whose remote calls return empty. -/
theorem C4_fallback_chain_witness :
    (handleToggleAudio
      ⟨5, ("p3").data, ("en").data,
        ⟨none, .empty, .empty, ("Temple Three").data, ("Third description.").data,
          ("Third importance.").data⟩⟩ demoStart).2.filter isSynthEff =
      [.remoteCall (primaryText
        ⟨none, .empty, .empty, ("Temple Three").data, ("Third description.").data,
          ("Third importance.").data⟩),
       .remoteCall (simplifiedText
        ⟨none, .empty, .empty, ("Temple Three").data, ("Third description.").data,
          ("Third importance.").data⟩),
       .speakNative (fallbackText
        ⟨none, .empty, .empty, ("Temple Three").data, ("Third description.").data,
          ("Third importance.").data⟩)] :=
  C4_fallback_chain.1
    ⟨5, ("p3").data, ("en").data,
      ⟨none, .empty, .empty, ("Temple Three").data, ("Third description.").data,
        ("Third importance.").data⟩⟩ demoStart
    rfl rfl rfl (by decide) rfl (by decide)

/-! ### Cache promotion (C7) -/

/-- C7: a persistent-store hit with an empty memory cache decodes the
stored payload, promotes the decoded buffer into the memory cache under
the same key, starts playback of that buffer, makes no remote call, and
ends with the playing state set and the loading state cleared. -/
theorem C7_cache_promotion (c : ReqCtx) (st : OrchState) (p : Str)
    (buf : AudioBuf)
    (hdb : c.env.dbGet = some p)
    (hdec : decodeChain p = .ok buf)
    (hplay : st.playingPlaceId ≠ some c.placeId)
    (hcache : cacheLookup st.audioCache (cacheKeyOf c) = none) :
    cacheLookup (handleToggleAudio c st).1.audioCache (cacheKeyOf c) =
      some buf ∧
    Eff.playBuf buf ∈ (handleToggleAudio c st).2 ∧
    (handleToggleAudio c st).2.filter isRemoteEff = [] ∧
    (handleToggleAudio c st).1.playingPlaceId = some c.placeId ∧
    (handleToggleAudio c st).1.loadingPlaceId = none := by
  have e1 : stepSeg c PC.start st =
      ({ st with
          playingPlaceId := none
          activeRequestId := some c.token
          loadingPlaceId := some c.placeId }, some PC.afterDb,
        [.unlockCtx, .stopAudioAll, .setPlaying none,
         .setLoading (some c.placeId), .dbReadReq (cacheKeyOf c)]) := by
    simp [stepSeg, segStart, hplay, hcache]
  have e2 : stepSeg c PC.afterDb
      ({ st with
          playingPlaceId := none
          activeRequestId := some c.token
          loadingPlaceId := some c.placeId }) =
      ({ st with
          playingPlaceId := some c.placeId
          activeRequestId := some c.token
          loadingPlaceId := none
          audioCache := cacheInsert st.audioCache (cacheKeyOf c) buf }, none,
        [.playBuf buf, .setPlaying (some c.placeId), .setLoading none,
         .setLoading none]) := by
    simp [stepSeg, segAfterDb, hdb, hdec]
  simp only [handleToggleAudio, runReq, e1, e2]
  simp [cacheInsert, cacheLookup, isRemoteEff]

/-- C7 applied to a store hit carrying the base64 payload "AAAA". -/
theorem C7_cache_promotion_witness :
    cacheLookup (handleToggleAudio demoCtxA demoStart).1.audioCache
      (cacheKeyOf demoCtxA) =
      some (match decodeChain demoPayloadA with
        | .ok b => b
        | .error _ => ⟨0, 0, 0, []⟩) ∧
    (handleToggleAudio demoCtxA demoStart).2.filter isRemoteEff = [] :=
  have h := C7_cache_promotion demoCtxA demoStart demoPayloadA
    (match decodeChain demoPayloadA with
      | .ok b => b
      | .error _ => ⟨0, 0, 0, []⟩)
    rfl rfl (by decide) rfl
  ⟨h.1, h.2.2.1⟩

/-! ### Same-place toggle acts as stop (C10) -/

/-- C10: toggling the place that is currently playing stops playback and
clears the playing state, mints no new token, performs no cache or store
lookup and starts no synthesis — the request completes immediately; a
toggle for any other (uncached) place stops current audio, installs a
fresh token, sets the loading state, and starts the store read. -/
theorem C10_same_place_toggle (c : ReqCtx) (st : OrchState) :
    (st.playingPlaceId = some c.placeId →
      stepSeg c PC.start st =
        ({ st with playingPlaceId := none }, none,
          [.unlockCtx, .stopAudioAll, .setPlaying none])) ∧
    (st.playingPlaceId ≠ some c.placeId →
      cacheLookup st.audioCache (cacheKeyOf c) = none →
      stepSeg c PC.start st =
        ({ st with
            playingPlaceId := none
            activeRequestId := some c.token
            loadingPlaceId := some c.placeId }, some PC.afterDb,
          [.unlockCtx, .stopAudioAll, .setPlaying none,
           .setLoading (some c.placeId), .dbReadReq (cacheKeyOf c)])) := by
  constructor
  · intro h
    simp [stepSeg, segStart, h]
  · intro h hc
    simp [stepSeg, segStart, h, hc]

/-- C10 applied while place p1 is narrating. -/
theorem C10_same_place_toggle_witness :
    stepSeg demoCtxA PC.start ⟨some 9, some (("p1").data), none, []⟩ =
      ((⟨some 9, none, none, []⟩ : OrchState), none,
        [.unlockCtx, .stopAudioAll, .setPlaying none]) :=
  (C10_same_place_toggle demoCtxA ⟨some 9, some (("p1").data), none, []⟩).1 rfl

end AudioPipeline
